import Mathlib

/-!
# Verification of the iced-demo table / application shell

A shallow embedding of `src/data_table.rs` and `src/main.rs`.

Modelling conventions:
* Rust `f32` values are modelled as exact rationals (`ℚ`).  Every numeric
  value the claims touch (slider pairs, parsed cursor coordinates, the
  `36.0` header/row heights) is small and exactly representable, so rational
  arithmetic agrees with the `f32` arithmetic the code performs.
* Rust `&str` values are modelled as `List Char`.  `str::find` returns a byte
  index and the code slices at `idx + 2` right after the two ASCII bytes of
  `"x:"`/`"y:"`; we model the composite operation "suffix following the first
  occurrence of the needle", which coincides with it.
* `str::trim_start`/`trim` use Unicode whitespace; we use `Char.isWhitespace`
  (space, tab, CR, LF), which agrees on every character the debug strings of
  the windowing backend produce.
* `f32::from_str` rounds to the nearest float; on the digit/dot/minus strings
  reachable here (`take_while(is_ascii_digit || '.' || '-')`) its accepted
  grammar is `-? (digits ('.' digits?)? | '.' digits)`, which `parseFloat`
  implements, returning the exact rational value.
* `std::process::exit(0)` is modelled by the `StepResult.exit 0` outcome of
  the update function; logging calls have no effect on state and are dropped,
  except that the tray handler's "Show clicked" log is kept as the
  `showLogged` observable so that "Show does nothing beyond logging" is
  statable.
* `tray_icon::menu::MenuId` is modelled as `Nat`; the global
  `TRAY_ICON_MENU_ITEM_IDS : HashMap<&str, MenuId>` is modelled as an
  association list passed explicitly to the functions that read it.
-/

/-! ## String utilities (Rust `str` operations on `List Char`) -/

/-- Does `hay` start with `needle`?  (Rust `str::starts_with`, used to build
`contains`/`find`.) -/
def listStartsWith : List Char → List Char → Bool
  | _, [] => true
  | [], _ :: _ => false
  | a :: as, b :: bs => a == b && listStartsWith as bs

/-- Rust `str::contains(needle)`: some position of `hay` starts with
`needle`. -/
def strContains : List Char → List Char → Bool
  | hay, needle =>
    match hay with
    | [] => listStartsWith [] needle
    | _ :: t => listStartsWith hay needle || strContains t needle

/-- Rust `hay.find(needle)` followed by slicing off the match:
the suffix of `hay` that follows the FIRST occurrence of `needle`
(`&hay[idx + needle.len()..]`), or `none` when `needle` does not occur. -/
def findTailAfter : List Char → List Char → Option (List Char)
  | hay, needle =>
    match hay with
    | [] => if listStartsWith [] needle then some [] else none
    | _ :: t =>
      if listStartsWith hay needle then some (hay.drop needle.length)
      else findTailAfter t needle

/-- Rust `str::trim`: drop whitespace from both ends. -/
def trimChars (cs : List Char) : List Char :=
  ((cs.dropWhile Char.isWhitespace).reverse.dropWhile Char.isWhitespace).reverse

/-- The character class kept by the scraper:
`c.is_ascii_digit() || c == '.' || c == '-'`. -/
def numChar (c : Char) : Bool :=
  c.isDigit || c == '.' || c == '-'

/-- Numeric value of a digit string (most significant first). -/
def digitsVal (ds : List Char) : Nat :=
  ds.foldl (fun a c => a * 10 + (c.toNat - 48)) 0

/-- Unsigned part of Rust's `f32::from_str` grammar restricted to the
digit/dot input reachable here: `digits ('.' digits?)? | '.' digits`,
consuming the whole string.  Returns the exact rational value. -/
def parseMantissa (cs : List Char) : Option ℚ :=
  let intPart := cs.takeWhile Char.isDigit
  let rest := cs.dropWhile Char.isDigit
  match rest with
  | [] =>
    if intPart.isEmpty then none else some (digitsVal intPart : ℚ)
  | c :: frac =>
    if c == '.' then
      if frac.all Char.isDigit then
        if intPart.isEmpty && frac.isEmpty then none
        else some ((digitsVal intPart : ℚ) + (digitsVal frac : ℚ) / (10 ^ frac.length))
      else none
    else none

/-- Rust `num_str.trim().parse::<f32>()` on strings drawn from
`take_while(is_ascii_digit || '.' || '-')`: an optional leading `-` then a
mantissa; anything else fails. -/
def parseFloat (cs : List Char) : Option ℚ :=
  match cs with
  | '-' :: rest => (parseMantissa rest).map (fun q => -q)
  | _ => parseMantissa cs

/-! ## Keyword constants of `on_window_event_debug` -/

def kwCursorMoved : List Char := "CursorMoved".toList
def kwMovedParen : List Char := "Moved(".toList
def kwMovedPoint : List Char := "MovedPoint".toList
def kwX : List Char := "x:".toList
def kwY : List Char := "y:".toList
def kwMouseInput : List Char := "MouseInput".toList
def kwMouseButton : List Char := "MouseButton".toList
def kwButtonPressed : List Char := "ButtonPressed".toList
def kwPressed : List Char := "Pressed".toList
def kwRight : List Char := "Right".toList

/-! ## Data model (`data_table.rs`) -/

/-- `struct Event` (duration in whole seconds, as `iced::time::Duration`
stores it; `hours n` = 3600·n, `minutes n` = 60·n). -/
structure Event where
  name : String
  duration : Nat
  price : ℚ
  rating : ℚ
deriving DecidableEq

/-- `enum TableMessage`. -/
inductive TableMessage where
  | PaddingChanged (x y : ℚ)
  | SeparatorChanged (x y : ℚ)
  | ShowDetails (idx : Nat)
  | HideDetails
  | HideContext
deriving DecidableEq

/-- `struct Table`. -/
structure Table where
  events : List Event
  padding : ℚ × ℚ
  separator : ℚ × ℚ
  selected : Option Nat
  last_cursor : Option (ℚ × ℚ)
  context_menu : Option (Nat × ℚ × ℚ)
deriving DecidableEq

/-- `Event::list()` — the hardcoded 15-entry fixture. -/
def Event.list : List Event :=
  [ { name := "Get lost in a hacker bookstore", duration := 7200, price := 0, rating := 4.9 },
    { name := "Buy vintage synth at Noisebridge flea market", duration := 3600, price := 150, rating := 4.8 },
    { name := "Eat a questionable hot dog at 2AM", duration := 1200, price := 5, rating := 1.7 },
    { name := "Ride the MUNI for the story", duration := 3600, price := 3, rating := 4.1 },
    { name := "Scream into the void from Twin Peaks", duration := 2400, price := 0, rating := 4.9 },
    { name := "Buy overpriced coffee and feel things", duration := 1500, price := 6.5, rating := 4.5 },
    { name := "Attend an underground robot poetry slam", duration := 3600, price := 12, rating := 4.8 },
    { name := "Browse cursed tech at a retro computer fair", duration := 7200, price := 10, rating := 4.7 },
    { name := "Try to order at a secret ramen place with no sign", duration := 3000, price := 14, rating := 4.6 },
    { name := "Join a spontaneous rooftop drone rave", duration := 10800, price := 0, rating := 4.9 },
    { name := "Sketch a stranger at Dolores Park", duration := 2700, price := 0, rating := 4.4 },
    { name := "Visit the Museum of Obsolete APIs", duration := 3600, price := 9.99, rating := 4.2 },
    { name := "Chase the last working payphone", duration := 2100, price := 0.25, rating := 4 },
    { name := "Trade zines with a punk on BART", duration := 1800, price := 3.5, rating := 4.7 },
    { name := "Get a tattoo of the Git logo", duration := 3600, price := 200, rating := 4.6 } ]

/-- `impl Default for Table`. -/
def Table.default : Table :=
  { events := Event.list
    padding := (10, 5)
    separator := (1, 1)
    selected := none
    last_cursor := none
    context_menu := none }

/-- `Table::update`. -/
def Table.update (t : Table) (message : TableMessage) : Table :=
  match message with
  | .PaddingChanged x y => { t with padding := (x, y) }
  | .SeparatorChanged x y => { t with separator := (x, y) }
  | .ShowDetails idx => { t with selected := some idx }
  | .HideDetails => { t with selected := none }
  | .HideContext => { t with context_menu := none }

/-- The move-marker test of `on_window_event_debug`:
`debug.contains("CursorMoved") || debug.contains("Moved(") ||
debug.contains("MovedPoint")`. -/
def hasMoveMarker (debug : List Char) : Bool :=
  strContains debug kwCursorMoved || strContains debug kwMovedParen
    || strContains debug kwMovedPoint

/-- The right-press test of `on_window_event_debug`:
`(contains("MouseInput") || contains("MouseButton") ||
contains("ButtonPressed") || contains("Pressed")) && contains("Right")`. -/
def hasRightPress (debug : List Char) : Bool :=
  (strContains debug kwMouseInput || strContains debug kwMouseButton
      || strContains debug kwButtonPressed || strContains debug kwPressed)
    && strContains debug kwRight

/-- One coordinate extraction of `on_window_event_debug`: find the marker
(`"x:"` or `"y:"`), take the suffix after it, `trim_start`, keep
digit/dot/minus characters, `trim`, `parse::<f32>()`. -/
def parseCoordAfter (debug kw : List Char) : Option ℚ :=
  match findTailAfter debug kw with
  | some tail => parseFloat (trimChars ((tail.dropWhile Char.isWhitespace).takeWhile numChar))
  | none => none

/-- The whole cursor-coordinate parse: requires a move marker and both
coordinates; `none` on any failure (the claims' "the cursor-coordinate
parse fails"). -/
def cursorParse (debug : List Char) : Option (ℚ × ℚ) :=
  if hasMoveMarker debug then
    match parseCoordAfter debug kwX, parseCoordAfter debug kwY with
    | some xv, some yv => some (xv, yv)
    | _, _ => none
  else none

/-- The row index derived from a cursor `y`:
`((y - header_h) / row_h).floor() as usize` with both heights `36.0`
(the cast is reached only under `y > 36`, where the value is
non-negative). -/
def derivedIdx (y : ℚ) : Nat :=
  ((y - 36) / 36).floor.toNat

/-- First block of `Table::on_window_event_debug` (lines 48–73): on a move
marker, parse `x`/`y` and update `last_cursor` when both parse. -/
def Table.applyCursorUpdate (t : Table) (debug : List Char) : Table :=
  if hasMoveMarker debug then
    match parseCoordAfter debug kwX, parseCoordAfter debug kwY with
    | some xv, some yv => { t with last_cursor := some (xv, yv) }
    | _, _ => t
  else t

/-- Second block of `Table::on_window_event_debug` (lines 77–92): on a
right-press marker, use `last_cursor` to open a context menu when `y > 36`
and the derived row index is in range. -/
def Table.applyRightClick (t : Table) (debug : List Char) : Table :=
  if hasRightPress debug then
    match t.last_cursor with
    | some (x, y) =>
      if y > 36 then
        if derivedIdx y < t.events.length then
          { t with context_menu := some (derivedIdx y, x, y) }
        else t
      else t
    | none => t
  else t

/-- `Table::on_window_event_debug`: the cursor-update block runs first, the
right-click block then reads the possibly just-updated `last_cursor`. -/
def Table.on_window_event_debug (t : Table) (debug : List Char) : Table :=
  (t.applyCursorUpdate debug).applyRightClick debug

/-! ## View rendering (`Table::view`)

The widget tree is abstracted to the observable the claims are about: which
of the two overlays the returned tree is.  The source builds the main column
(header, 15 data rows, the two slider controls), pushes the context-menu
overlay onto it when `context_menu` is `Some`, and then — when a row is
selected AND `events.get(idx)` succeeds — early-returns the full-screen
modal backdrop instead, discarding the main column entirely. -/

/-- The two possible shapes of the element tree `Table::view` returns:
the full-screen modal backdrop for event `ev` at row `idx`, or the main
column carrying the context-menu overlay descriptor (if any). -/
inductive Render where
  | modal (idx : Nat) (ev : Event)
  | mainCol (context_menu : Option (Nat × ℚ × ℚ))
deriving DecidableEq

/-- `Table::view`, projected to its overlay outcome. -/
def Table.view (t : Table) : Render :=
  match t.selected with
  | some idx =>
    match t.events[idx]? with
    | some ev => Render.modal idx ev
    | none => Render.mainCol t.context_menu
  | none => Render.mainCol t.context_menu

/-! ## Application shell (`main.rs`) -/

/-- `struct AppState` (`#[derive(Default)]`: `show_confirm = false`,
`main_table = Table::default()`). -/
structure AppState where
  show_confirm : Bool
  main_table : Table
deriving DecidableEq

def AppState.default : AppState :=
  { show_confirm := false, main_table := Table.default }

/-- `iced::window::Event`, as `update` distinguishes it: `CloseRequested`
versus every other variant, which `update` only ever formats with
`format!("{event:?}")` and forwards — modelled by its debug string. -/
inductive WindowEvent where
  | CloseRequested
  | Other (dbg : List Char)
deriving DecidableEq

/-- `enum Message` (`MenuId` as `Nat`). -/
inductive Message where
  | WindowEvent (e : WindowEvent)
  | TrayIconEvent (menu_id : Nat)
  | ConfirmExit
  | CancelExit
  | TbMsg (m : TableMessage)
  | Noop
deriving DecidableEq

/-- Outcome of one `update` call: either the new state, or the process was
terminated via `std::process::exit(code)`. -/
inductive StepResult where
  | cont (s : AppState)
  | exit (code : Nat)
deriving DecidableEq

def STR_SHOW : String := "Show"
def STR_QUIT : String := "Quit"

/-- Observable effects of `handle_tray_icon_event`: whether the
"Show clicked" log line ran (the Show branch does nothing else) and whether
`std::process::exit(0)` was reached. -/
structure TrayOutcome where
  showLogged : Bool
  exited : Bool
deriving DecidableEq

/-- `handle_tray_icon_event`, with the global
`TRAY_ICON_MENU_ITEM_IDS` registry passed explicitly: look up the `"Quit"`
and `"Show"` ids; if the event id equals the Show id, only log; if it
equals the Quit id, exit the process. -/
def handle_tray_icon_event (reg : List (String × Nat)) (event_id : Nat) : TrayOutcome :=
  let quit_id := List.lookup STR_QUIT reg
  let show_id := List.lookup STR_SHOW reg
  let showLogged :=
    match show_id with
    | some sid => event_id == sid
    | none => false
  let exited :=
    match quit_id with
    | some qid => event_id == qid
    | none => false
  { showLogged := showLogged, exited := exited }

/-- `fn update(state, message)` of `main.rs`, with the tray registry passed
explicitly. -/
def update (reg : List (String × Nat)) (state : AppState) (message : Message) : StepResult :=
  match message with
  | .WindowEvent .CloseRequested => .cont { state with show_confirm := true }
  | .WindowEvent (.Other dbg) =>
    .cont { state with main_table := state.main_table.on_window_event_debug dbg }
  | .ConfirmExit => .exit 0
  | .TrayIconEvent menu_id =>
    if (handle_tray_icon_event reg menu_id).exited then .exit 0 else .cont state
  | .TbMsg m => .cont { state with main_table := state.main_table.update m }
  | .CancelExit => .cont { state with show_confirm := false }
  | .Noop => .cont state

/-- `fn view` of `main.rs`, projected the same way: the confirm dialog when
`show_confirm`, the table view otherwise. -/
inductive AppRender where
  | confirmDialog
  | tableView (r : Render)
deriving DecidableEq

def view (state : AppState) : AppRender :=
  if state.show_confirm then .confirmDialog else .tableView state.main_table.view

/-! ## Reachability (for the context-menu invariant) -/

/-- Table states reachable from `Table::default()` by any sequence of
`update` and `on_window_event_debug` calls. -/
inductive Reachable : Table → Prop where
  | init : Reachable Table.default
  | step_update (t : Table) (m : TableMessage) :
      Reachable t → Reachable (t.update m)
  | step_window (t : Table) (dbg : List Char) :
      Reachable t → Reachable (t.on_window_event_debug dbg)

/-! ## Helper lemmas about the two blocks of `on_window_event_debug` -/

lemma applyCursorUpdate_eq (t : Table) (dbg : List Char) :
    t.applyCursorUpdate dbg =
      match cursorParse dbg with
      | some p => { t with last_cursor := some p }
      | none => t := by
  unfold Table.applyCursorUpdate cursorParse
  cases h : hasMoveMarker dbg
  · simp [h]
  · cases hx : parseCoordAfter dbg kwX <;> cases hy : parseCoordAfter dbg kwY <;>
      simp [h, hx, hy]

lemma applyCursorUpdate_shape (t : Table) (dbg : List Char) :
    ∃ lc, t.applyCursorUpdate dbg = { t with last_cursor := lc } := by
  unfold Table.applyCursorUpdate
  repeat' split
  all_goals exact ⟨_, rfl⟩

lemma applyRightClick_shape (t : Table) (dbg : List Char) :
    ∃ cm, t.applyRightClick dbg = { t with context_menu := cm } := by
  unfold Table.applyRightClick
  repeat' split
  all_goals exact ⟨_, rfl⟩

lemma applyRightClick_of_press (t : Table) (dbg : List Char) (x y : ℚ)
    (hc : t.last_cursor = some (x, y)) (hp : hasRightPress dbg = true) :
    t.applyRightClick dbg =
      if 36 < y ∧ derivedIdx y < t.events.length
      then { t with context_menu := some (derivedIdx y, x, y) } else t := by
  unfold Table.applyRightClick
  rw [hc]
  by_cases h1 : 36 < y <;> by_cases h2 : derivedIdx y < t.events.length <;>
    simp [hp, h1, h2]

lemma applyRightClick_of_no_press (t : Table) (dbg : List Char)
    (hp : hasRightPress dbg = false) :
    t.applyRightClick dbg = t := by
  unfold Table.applyRightClick
  simp [hp]

lemma applyRightClick_menu (t : Table) (dbg : List Char) :
    (t.applyRightClick dbg).context_menu = t.context_menu
    ∨ ∃ x y, (t.applyRightClick dbg).context_menu = some (derivedIdx y, x, y)
        ∧ derivedIdx y < t.events.length := by
  unfold Table.applyRightClick
  repeat' split
  all_goals try exact Or.inl rfl
  refine Or.inr ⟨_, _, rfl, ?_⟩
  assumption

lemma update_events (t : Table) (m : TableMessage) : (t.update m).events = t.events := by
  cases m <;> rfl

lemma update_menu (t : Table) (m : TableMessage) :
    (t.update m).context_menu = t.context_menu ∨ (t.update m).context_menu = none := by
  cases m <;> simp [Table.update]

lemma on_window_events (t : Table) (dbg : List Char) :
    (t.on_window_event_debug dbg).events = t.events := by
  rw [Table.on_window_event_debug]
  obtain ⟨lc, h1⟩ := applyCursorUpdate_shape t dbg
  obtain ⟨cm, h2⟩ := applyRightClick_shape (t.applyCursorUpdate dbg) dbg
  rw [h2, h1]

lemma on_window_menu (t : Table) (dbg : List Char) :
    (t.on_window_event_debug dbg).context_menu = t.context_menu
    ∨ ∃ idx x y, (t.on_window_event_debug dbg).context_menu = some (idx, x, y)
        ∧ idx < t.events.length := by
  rw [Table.on_window_event_debug]
  obtain ⟨lc, h1⟩ := applyCursorUpdate_shape t dbg
  rcases applyRightClick_menu (t.applyCursorUpdate dbg) dbg with h | ⟨x, y, h, hlt⟩
  · left; rw [h, h1]
  · right
    refine ⟨derivedIdx y, x, y, h, ?_⟩
    rw [h1] at hlt
    exact hlt

lemma on_window_move_and_press (t : Table) (dbg : List Char) (x y : ℚ)
    (hcp : cursorParse dbg = some (x, y)) (hp : hasRightPress dbg = true) :
    t.on_window_event_debug dbg =
      if 36 < y ∧ derivedIdx y < t.events.length
      then { t with last_cursor := some (x, y), context_menu := some (derivedIdx y, x, y) }
      else { t with last_cursor := some (x, y) } := by
  rw [Table.on_window_event_debug, applyCursorUpdate_eq, hcp]
  rw [applyRightClick_of_press _ dbg x y rfl hp]

lemma on_window_press_only (t : Table) (dbg : List Char) (x y : ℚ)
    (hc : t.last_cursor = some (x, y)) (hnc : cursorParse dbg = none)
    (hp : hasRightPress dbg = true) :
    t.on_window_event_debug dbg =
      if 36 < y ∧ derivedIdx y < t.events.length
      then { t with context_menu := some (derivedIdx y, x, y) } else t := by
  rw [Table.on_window_event_debug, applyCursorUpdate_eq, hnc]
  exact applyRightClick_of_press t dbg x y hc hp

lemma on_window_cursor (t : Table) (dbg : List Char) (x y : ℚ)
    (hcp : cursorParse dbg = some (x, y)) :
    (t.on_window_event_debug dbg).last_cursor = some (x, y)
    ∧ (t.on_window_event_debug dbg).events = t.events
    ∧ (¬(36 < y ∧ derivedIdx y < t.events.length) →
        (t.on_window_event_debug dbg).context_menu = t.context_menu) := by
  cases hp : hasRightPress dbg
  · rw [Table.on_window_event_debug, applyCursorUpdate_eq, hcp,
      applyRightClick_of_no_press _ dbg hp]
    exact ⟨rfl, rfl, fun _ => rfl⟩
  · rw [on_window_move_and_press t dbg x y hcp hp]
    by_cases hcond : 36 < y ∧ derivedIdx y < t.events.length
    · simp [hcond]
    · simp [hcond]

lemma derivedIdx_100 : derivedIdx 100 = 1 := by
  rw [derivedIdx]; norm_num [Rat.floor]

lemma default_events_length : Table.default.events.length = 15 := rfl

lemma default_move_press_menu :
    (Table.default.on_window_event_debug
        ("CursorMoved x: 5 y: 100 ButtonPressed Right".toList)).context_menu
      = some (1, 5, 100) := by
  rw [on_window_move_and_press Table.default
    ("CursorMoved x: 5 y: 100 ButtonPressed Right".toList) 5 100 rfl rfl]
  rw [derivedIdx_100, default_events_length]
  norm_num

/-! ## Claim theorems -/

/-- C2: in the Normal state (`show_confirm = false`), a window-close request
sets `show_confirm := true` (Normal → ConfirmingExit) and the Confirm
message terminates the process immediately with exit code 0. -/
theorem c2_close_request_confirms_and_confirm_exits
    (reg : List (String × Nat)) (s : AppState) (hnormal : s.show_confirm = false) :
    update reg s (.WindowEvent .CloseRequested) = .cont { s with show_confirm := true }
    ∧ update reg s .ConfirmExit = .exit 0 :=
  ⟨rfl, rfl⟩

theorem c2_witness :
    AppState.default.show_confirm = false
    ∧ update [] AppState.default (.WindowEvent .CloseRequested)
        = .cont { AppState.default with show_confirm := true }
    ∧ update [] AppState.default .ConfirmExit = .exit 0 :=
  ⟨rfl, (c2_close_request_confirms_and_confirm_exits [] AppState.default rfl).1,
    (c2_close_request_confirms_and_confirm_exits [] AppState.default rfl).2⟩

/-- C3: when both a selection with an in-range index and an open context
menu exist, `view` renders the full-screen details modal and not the
context-menu overlay (the modal render path returns early). -/
theorem c3_modal_masks_context_menu (t : Table) (idx : Nat)
    (hsel : t.selected = some idx) (hlt : idx < t.events.length)
    (hmenu : t.context_menu.isSome = true) :
    t.view = Render.modal idx t.events[idx]
    ∧ ∀ cm, t.view ≠ Render.mainCol cm := by
  have h : t.events[idx]? = some t.events[idx] := List.getElem?_eq_getElem hlt
  constructor
  · simp [Table.view, hsel, h]
  · intro cm hcm
    rw [show t.view = Render.modal idx t.events[idx] by simp [Table.view, hsel, h]] at hcm
    exact Render.noConfusion hcm

/-- A concrete state with both a selection (row 0) and an open context
menu, for the C3 witness. -/
def tableBothOverlays : Table :=
  { Table.default with selected := some 0, context_menu := some (0, 5, 100) }

theorem c3_witness :
    tableBothOverlays.selected = some 0
    ∧ 0 < tableBothOverlays.events.length
    ∧ tableBothOverlays.context_menu.isSome = true
    ∧ (∃ ev, tableBothOverlays.view = Render.modal 0 ev)
    ∧ ∀ cm, tableBothOverlays.view ≠ Render.mainCol cm :=
  ⟨rfl, by decide, rfl,
    ⟨_, (c3_modal_masks_context_menu tableBothOverlays 0 rfl (by decide) rfl).1⟩,
    (c3_modal_masks_context_menu tableBothOverlays 0 rfl (by decide) rfl).2⟩

/-- C5: storing an out-of-range index with `ShowDetails(i)` and then
rendering produces no modal overlay: `events.get(idx)` fails the guarded
existence check and `view` falls through to the main column. -/
theorem c5_out_of_range_selection_no_modal (t : Table) (i : Nat)
    (h : t.events.length ≤ i) :
    (t.update (.ShowDetails i)).view = Render.mainCol t.context_menu := by
  have hnone : t.events[i]? = none := List.getElem?_eq_none h
  simp [Table.update, Table.view, hnone]

theorem c5_witness :
    Table.default.events.length ≤ 15
    ∧ (Table.default.update (.ShowDetails 15)).view = Render.mainCol none :=
  ⟨by decide, c5_out_of_range_selection_no_modal Table.default 15 (by decide)⟩

/-- C7: `CancelExit` resets `show_confirm` to `false` (the initial no-dialog
shell state) and leaves the table state and every other field unchanged. -/
theorem c7_cancel_exit_resets_flag (reg : List (String × Nat)) (s : AppState) :
    update reg s .CancelExit = .cont { s with show_confirm := false } :=
  rfl

/-- C8: `PaddingChanged(x, y)` (resp. `SeparatorChanged(x, y)`) sets the
stored pair to exactly `(x, y)`, unconditionally overwriting the previous
value, and applying the same message twice equals applying it once. -/
theorem c8_padding_separator_overwrite_idempotent (t : Table) (x y : ℚ) :
    (t.update (.PaddingChanged x y)).padding = (x, y)
    ∧ (t.update (.SeparatorChanged x y)).separator = (x, y)
    ∧ (t.update (.PaddingChanged x y)).update (.PaddingChanged x y)
        = t.update (.PaddingChanged x y)
    ∧ (t.update (.SeparatorChanged x y)).update (.SeparatorChanged x y)
        = t.update (.SeparatorChanged x y) :=
  ⟨rfl, rfl, rfl, rfl⟩

/-- C9: `ShowDetails(i)` followed immediately by `HideDetails` yields a
state with no selection, for every `i`. -/
theorem c9_show_then_hide_clears_selection (t : Table) (i : Nat) :
    ((t.update (.ShowDetails i)).update .HideDetails).selected = none :=
  rfl

/-- C4: with the registry populated with the `"Show"` and `"Quit"`
identifiers, the handler maps exactly those two ids to their actions —
`"Quit"` exits the process, `"Show"` only logs — and every other id is a
no-op; at the shell level a tray event exits iff the id is the Quit id,
and otherwise leaves the state untouched. -/
theorem c4_tray_registry_dispatch (sid qid other : Nat) (s : AppState)
    (hsq : sid ≠ qid) (hos : other ≠ sid) (hoq : other ≠ qid) :
    handle_tray_icon_event [(STR_SHOW, sid), (STR_QUIT, qid)] qid
        = { showLogged := false, exited := true }
    ∧ handle_tray_icon_event [(STR_SHOW, sid), (STR_QUIT, qid)] sid
        = { showLogged := true, exited := false }
    ∧ handle_tray_icon_event [(STR_SHOW, sid), (STR_QUIT, qid)] other
        = { showLogged := false, exited := false }
    ∧ ∀ eid, update [(STR_SHOW, sid), (STR_QUIT, qid)] s (.TrayIconEvent eid)
        = if eid = qid then .exit 0 else .cont s := by
  have hq : List.lookup STR_QUIT [(STR_SHOW, sid), (STR_QUIT, qid)] = some qid := rfl
  have hs : List.lookup STR_SHOW [(STR_SHOW, sid), (STR_QUIT, qid)] = some sid := rfl
  refine ⟨?_, ?_, ?_, ?_⟩
  · simp [handle_tray_icon_event, hq, hs, Ne.symm hsq]
  · simp [handle_tray_icon_event, hq, hs, hsq]
  · simp [handle_tray_icon_event, hq, hs, hos, hoq]
  · intro eid
    by_cases h : eid = qid <;>
      simp [update, handle_tray_icon_event, hq, hs, h]

theorem c4_witness :
    handle_tray_icon_event [(STR_SHOW, 1), (STR_QUIT, 2)] 2
        = { showLogged := false, exited := true }
    ∧ handle_tray_icon_event [(STR_SHOW, 1), (STR_QUIT, 2)] 1
        = { showLogged := true, exited := false }
    ∧ handle_tray_icon_event [(STR_SHOW, 1), (STR_QUIT, 2)] 3
        = { showLogged := false, exited := false }
    ∧ update [(STR_SHOW, 1), (STR_QUIT, 2)] AppState.default (.TrayIconEvent 2)
        = .exit 0 := by
  have h := c4_tray_registry_dispatch 1 2 3 AppState.default
    (by decide) (by decide) (by decide)
  refine ⟨h.1, h.2.1, h.2.2.1, ?_⟩
  rw [h.2.2.2 2]
  simp

/-- C1: for a string with a move marker whose `x:`/`y:` substrings parse as
`xv`/`yv` and a right-button press marker — in the same string, or the
press in a later call whose own cursor parse fails — the handler stores
`last_cursor = (xv, yv)` (exactly what the direct numeric parse of those
substrings yields) and opens the context menu exactly when `yv > 36` and
the derived row index `⌊(yv − 36)/36⌋` is below the event-list length;
in particular `y = 100` derives index 1. -/
theorem c1_cursor_heuristic_and_context_menu (t : Table)
    (dbg dbg1 dbg2 : List Char) (xv yv : ℚ)
    (hmove : hasMoveMarker dbg = true)
    (hx : parseCoordAfter dbg kwX = some xv)
    (hy : parseCoordAfter dbg kwY = some yv)
    (hpress : hasRightPress dbg = true)
    (h1 : cursorParse dbg1 = some (xv, yv))
    (h2 : cursorParse dbg2 = none)
    (h2press : hasRightPress dbg2 = true) :
    ((t.on_window_event_debug dbg).last_cursor = some (xv, yv)
      ∧ (t.on_window_event_debug dbg).context_menu =
          (if 36 < yv ∧ derivedIdx yv < t.events.length
           then some (derivedIdx yv, xv, yv) else t.context_menu))
    ∧ (((t.on_window_event_debug dbg1).on_window_event_debug dbg2).last_cursor
          = some (xv, yv)
      ∧ ((t.on_window_event_debug dbg1).on_window_event_debug dbg2).context_menu =
          (if 36 < yv ∧ derivedIdx yv < t.events.length
           then some (derivedIdx yv, xv, yv) else t.context_menu))
    ∧ derivedIdx 100 = 1 := by
  have hcp : cursorParse dbg = some (xv, yv) := by
    simp [cursorParse, hmove, hx, hy]
  obtain ⟨hl1, he1, hm1⟩ := on_window_cursor t dbg1 xv yv h1
  refine ⟨⟨?_, ?_⟩, ⟨?_, ?_⟩, derivedIdx_100⟩
  · rw [on_window_move_and_press t dbg xv yv hcp hpress]
    split <;> rfl
  · rw [on_window_move_and_press t dbg xv yv hcp hpress]
    by_cases hcond : 36 < yv ∧ derivedIdx yv < t.events.length <;> simp [hcond]
  · rw [on_window_press_only _ dbg2 xv yv hl1 h2 h2press]
    split <;> exact hl1
  · rw [on_window_press_only _ dbg2 xv yv hl1 h2 h2press, he1]
    by_cases hcond : 36 < yv ∧ derivedIdx yv < t.events.length
    · simp [hcond]
    · simp [hcond, hm1 hcond]

theorem c1_witness :
    (Table.default.on_window_event_debug
        ("CursorMoved x: 5 y: 100 ButtonPressed Right".toList)).last_cursor
      = some (5, 100)
    ∧ (Table.default.on_window_event_debug
        ("CursorMoved x: 5 y: 100 ButtonPressed Right".toList)).context_menu
      = some (1, 5, 100)
    ∧ ((Table.default.on_window_event_debug ("CursorMoved x: 5 y: 100".toList)).on_window_event_debug
        ("ButtonPressed Right".toList)).context_menu
      = some (1, 5, 100)
    ∧ derivedIdx 100 = 1 := by
  have h := c1_cursor_heuristic_and_context_menu Table.default
    ("CursorMoved x: 5 y: 100 ButtonPressed Right".toList)
    ("CursorMoved x: 5 y: 100".toList) ("ButtonPressed Right".toList)
    5 100 rfl rfl rfl rfl rfl rfl rfl
  obtain ⟨⟨ha1, ha2⟩, ⟨hb1, hb2⟩, hd⟩ := h
  refine ⟨ha1, ?_, ?_, hd⟩
  · rw [ha2, derivedIdx_100, default_events_length]
    norm_num
  · rw [hb2, derivedIdx_100, default_events_length]
    norm_num

/-- C6 counterexample: `"ButtonPressed Right"` fails the cursor-coordinate
parse (no move marker), yet from a state whose `last_cursor` is `(5, 100)`
the handler still changes the state — the right-press block opens a
context menu from the previously stored cursor.  So "parse fails ⇒ table
state completely unchanged" is false as stated. -/
theorem c6_counterexample_press_after_failed_parse :
    cursorParse ("ButtonPressed Right".toList) = none
    ∧ ({ Table.default with last_cursor := some (5, 100) } : Table).on_window_event_debug
        ("ButtonPressed Right".toList)
      ≠ { Table.default with last_cursor := some (5, 100) } := by
  refine ⟨rfl, ?_⟩
  intro heq
  have h := on_window_press_only
    ({ Table.default with last_cursor := some (5, 100) } : Table)
    ("ButtonPressed Right".toList) 5 100 rfl rfl rfl
  have hlen : ({ Table.default with last_cursor := some (5, 100) } : Table).events.length
      = 15 := rfl
  have hcm : (({ Table.default with last_cursor := some (5, 100) } : Table).on_window_event_debug
      ("ButtonPressed Right".toList)).context_menu = some (1, 5, 100) := by
    rw [h, derivedIdx_100, hlen]
    norm_num
  rw [heq] at hcm
  simp [Table.default] at hcm

/-- C6 (amended): if the cursor-coordinate parse fails, `last_cursor` keeps
its previous value and so do the events, padding, separator and selection;
only `context_menu` can still change (via the right-press block using the
previously stored cursor), and if the string has no right-press marker
either, the state is completely unchanged. -/
theorem c6_parse_failure_leaves_fields (t : Table) (dbg : List Char)
    (h : cursorParse dbg = none) :
    (t.on_window_event_debug dbg).last_cursor = t.last_cursor
    ∧ (t.on_window_event_debug dbg).events = t.events
    ∧ (t.on_window_event_debug dbg).padding = t.padding
    ∧ (t.on_window_event_debug dbg).separator = t.separator
    ∧ (t.on_window_event_debug dbg).selected = t.selected
    ∧ (hasRightPress dbg = false → t.on_window_event_debug dbg = t) := by
  have hcu : t.applyCursorUpdate dbg = t := by
    rw [applyCursorUpdate_eq, h]
  rw [Table.on_window_event_debug, hcu]
  obtain ⟨cm, hcm⟩ := applyRightClick_shape t dbg
  exact ⟨by rw [hcm], by rw [hcm], by rw [hcm], by rw [hcm], by rw [hcm],
    fun hp => applyRightClick_of_no_press t dbg hp⟩

theorem c6_witness :
    cursorParse ("Resized x: 1 y: 2".toList) = none
    ∧ hasRightPress ("Resized x: 1 y: 2".toList) = false
    ∧ Table.default.on_window_event_debug ("Resized x: 1 y: 2".toList) = Table.default :=
  ⟨rfl, rfl,
    (c6_parse_failure_leaves_fields Table.default ("Resized x: 1 y: 2".toList) rfl).2.2.2.2.2 rfl⟩

/-- C10: in every table state reachable from the default state by `update`
and `on_window_event_debug` calls, the event list is still the initial
15-entry fixture, and any open context-menu descriptor carries a row index
strictly below the event-list length. -/
theorem c10_context_menu_invariant (t : Table) (h : Reachable t) :
    t.events = Event.list ∧ t.events.length = 15
    ∧ ∀ idx x y, t.context_menu = some (idx, x, y) → idx < t.events.length := by
  induction h with
  | init =>
    refine ⟨rfl, rfl, ?_⟩
    intro idx x y hcm
    simp [Table.default] at hcm
  | step_update t m ht ih =>
    obtain ⟨he, hl, hcm⟩ := ih
    refine ⟨?_, ?_, ?_⟩
    · rw [update_events]; exact he
    · rw [update_events]; exact hl
    · intro idx x y hmenu
      rw [update_events]
      rcases update_menu t m with h1 | h1
      · rw [h1] at hmenu
        exact hcm idx x y hmenu
      · rw [h1] at hmenu
        exact absurd hmenu (by simp)
  | step_window t dbg ht ih =>
    obtain ⟨he, hl, hcm⟩ := ih
    refine ⟨?_, ?_, ?_⟩
    · rw [on_window_events]; exact he
    · rw [on_window_events]; exact hl
    · intro idx x y hmenu
      rw [on_window_events]
      rcases on_window_menu t dbg with h1 | ⟨idx2, x2, y2, h1, hlt⟩
      · rw [h1] at hmenu
        exact hcm idx x y hmenu
      · rw [h1] at hmenu
        obtain ⟨h3, h4, h5⟩ : idx2 = idx ∧ x2 = x ∧ y2 = y := by simpa using hmenu
        exact h3 ▸ hlt

theorem c10_witness :
    ((Table.default.on_window_event_debug
        ("CursorMoved x: 5 y: 100 ButtonPressed Right".toList)).events = Event.list)
    ∧ (Table.default.on_window_event_debug
        ("CursorMoved x: 5 y: 100 ButtonPressed Right".toList)).events.length = 15
    ∧ 1 < (Table.default.on_window_event_debug
        ("CursorMoved x: 5 y: 100 ButtonPressed Right".toList)).events.length := by
  have h := c10_context_menu_invariant
    (Table.default.on_window_event_debug
      ("CursorMoved x: 5 y: 100 ButtonPressed Right".toList))
    (Reachable.step_window Table.default _ Reachable.init)
  exact ⟨h.1, h.2.1, h.2.2 1 5 100 default_move_press_menu⟩
